import Mathlib

/-!
Verification of the fresco query-construction and chunked-execution engine.

The repository builds parameterized SQL text from interactively collected filter
conditions, gates mutation behind a time-window validation flag, and executes the
resulting query in row chunks, optionally streaming each chunk to disk under a
disk-space budget.  The definitions below are shallow embeddings of the relevant
Python functions (from `notebook_functions.py`, `classes/data_processor.py`,
`classes/widget_state_manager.py` and `classes/database_manager.py`); the
theorems settle the frozen specification claims against them.
-/

/-! ### Python string and list primitives

The source is Python; these model the `str` and `list` operations the engine
uses, working on the character list underlying a `String` so that every
definition evaluates by kernel reduction.
-/

/-- The ASCII whitespace characters removed by Python `str.strip()`. -/
def pyIsSpace (c : Char) : Bool :=
  c = ' ' || c = '\t' || c = '\n' || c = '\r' || c = '\x0b' || c = '\x0c'

/-- Python `str.strip()` on a character list. -/
def pyStripChars (s : List Char) : List Char :=
  ((s.dropWhile pyIsSpace).reverse.dropWhile pyIsSpace).reverse

/-- Python `str.strip()`. -/
def pyStrip (s : String) : String :=
  String.mk (pyStripChars s.data)

/-- Python `str.upper()` (ASCII range). -/
def pyUpper (s : String) : String :=
  String.mk (s.data.map Char.toUpper)

/-- Python `str.lower()` / `str.casefold()` (ASCII range). -/
def pyLower (s : String) : String :=
  String.mk (s.data.map Char.toLower)

/-- Python `str.split(sep)` for a one-character separator, on character lists:
splits at every separator occurrence, so `n` separators give `n + 1` pieces and
the empty string gives `[[]]` (never the empty list). -/
def pySplitChars (sep : Char) : List Char → List (List Char)
  | [] => [[]]
  | c :: cs =>
    if c = sep then [] :: pySplitChars sep cs
    else
      match pySplitChars sep cs with
      | [] => [[c]]
      | p :: ps => (c :: p) :: ps

/-- Python `str.split(sep)` for a one-character separator. -/
def pySplit (sep : Char) (s : String) : List String :=
  (pySplitChars sep s.data).map String.mk

/-- Python `sep.join(parts)`. -/
def pyJoin (sep : String) : List String → String
  | [] => ""
  | [x] => x
  | x :: xs => x ++ sep ++ pyJoin sep xs

/-- Python `list.pop(i)` for a nonnegative index: `none` models the
`IndexError` raised when the index is out of range. -/
def popIdx {α : Type} : List α → Nat → Option (List α)
  | [], _ => none
  | _ :: xs, 0 => some xs
  | x :: xs, n + 1 => (popIdx xs n).map (fun ys => x :: ys)

/-- Python `list.index(x)`: the index of the first occurrence; `none` models the
`ValueError` raised when the element is absent. -/
def indexOfOpt : List String → String → Option Nat
  | [], _ => none
  | y :: ys, x => if y = x then some 0 else (indexOfOpt ys x).map (fun n => n + 1)

/-! ### Counting `%s` placeholders

`countPS` counts occurrences of the two-character placeholder `"%s"` in query
text; since `'%' ≠ 's'` occurrences cannot overlap, a sliding-window count is
exact. -/

/-- Contribution of one window position: 1 when character `a` followed by the
head of `t` spells `"%s"`. -/
def psAt (a : Char) : List Char → Nat
  | b :: _ => if a = '%' ∧ b = 's' then 1 else 0
  | [] => 0

/-- Number of `"%s"` occurrences in a character list. -/
def countPSChars : List Char → Nat
  | [] => 0
  | a :: t => psAt a t + countPSChars t

/-- Number of positional `"%s"` placeholders in a query string. -/
def countPS (s : String) : Nat := countPSChars s.data

/-- The placeholder an append can create across the seam of two lists. -/
def psBoundary (a b : List Char) : Nat :=
  match a.getLast?, b.head? with
  | some c, some d => if c = '%' ∧ d = 's' then 1 else 0
  | _, _ => 0

theorem psAt_indep (a e : Char) (t t' : List Char) : psAt a (e :: t) = psAt a (e :: t') := rfl

theorem countPSChars_append (a b : List Char) :
    countPSChars (a ++ b) = countPSChars a + psBoundary a b + countPSChars b := by
  induction a with
  | nil => simp [countPSChars, psBoundary]
  | cons c a' ih =>
    cases a' with
    | nil =>
      cases b with
      | nil => rfl
      | cons d b' =>
        have h1 : countPSChars ([c] ++ (d :: b')) = psAt c (d :: b') + countPSChars (d :: b') :=
          rfl
        have h2 : countPSChars [c] = 0 := rfl
        have h3 : psBoundary [c] (d :: b') = psAt c (d :: b') := rfl
        rw [h1, h2, h3]
        omega
    | cons e a'' =>
      have hstep : countPSChars ((c :: e :: a'') ++ b) =
          psAt c (e :: a'') + countPSChars ((e :: a'') ++ b) := rfl
      have hcount : countPSChars (c :: e :: a'') = psAt c (e :: a'') + countPSChars (e :: a'') :=
        rfl
      have hbound : psBoundary (c :: e :: a'') b = psBoundary (e :: a'') b := by
        unfold psBoundary
        rw [List.getLast?_cons_cons]
      rw [hstep, ih, hcount, hbound]
      omega

theorem strdata_append (s t : String) : (s ++ t).data = s.data ++ t.data := by
  cases s; cases t; rfl

theorem countPS_append (s t : String) :
    countPS (s ++ t) = countPSChars s.data + psBoundary s.data t.data + countPSChars t.data := by
  unfold countPS
  rw [strdata_append, countPSChars_append]

theorem countPSChars_eq_zero {a : List Char} (h : '%' ∉ a) : countPSChars a = 0 := by
  induction a with
  | nil => rfl
  | cons c t ih =>
    have hc : c ≠ '%' := by
      intro hc
      exact h (hc ▸ List.mem_cons_self c t)
    have ht : '%' ∉ t := fun hm => h (List.mem_cons_of_mem c hm)
    have hps : psAt c t = 0 := by
      cases t with
      | nil => rfl
      | cons d t' => exact if_neg (fun hand => hc hand.1)
    simp [countPSChars, hps, ih ht]

theorem getLast?_ne_of_not_mem {α : Type} {x : α} {l : List α} (hx : x ∉ l) :
    l.getLast? ≠ some x := by
  intro hc
  exact hx (List.mem_of_getLast?_eq_some hc)

theorem psBoundary_eq_zero_left {a : List Char} (b : List Char)
    (h : a.getLast? ≠ some '%') : psBoundary a b = 0 := by
  unfold psBoundary
  cases hl : a.getLast? with
  | none => rfl
  | some c =>
    cases hh : b.head? with
    | none => rfl
    | some d =>
      have hc : c ≠ '%' := by
        intro he
        exact h (he ▸ hl)
      exact if_neg (fun hand => hc hand.1)

theorem psBoundary_eq_zero_right (a : List Char) {b : List Char}
    (h : b.head? ≠ some 's') : psBoundary a b = 0 := by
  unfold psBoundary
  cases hl : a.getLast? with
  | none => rfl
  | some c =>
    cases hh : b.head? with
    | none => rfl
    | some d =>
      have hd : d ≠ 's' := by
        intro he
        exact h (he ▸ hh)
      exact if_neg (fun hand => hd hand.2)

/-- No `'%'` character occurs in the string: such a piece of query text can
contribute neither placeholders nor placeholder seams. -/
def noPct (s : String) : Prop := '%' ∉ s.data

instance (s : String) : Decidable (noPct s) := by
  unfold noPct
  infer_instance

theorem countPS_eq_zero {s : String} (h : noPct s) : countPS s = 0 :=
  countPSChars_eq_zero h

theorem countPS_append_left {s t : String} (h : s.data.getLast? ≠ some '%') :
    countPS (s ++ t) = countPS s + countPS t := by
  rw [countPS_append, psBoundary_eq_zero_left _ h]
  rfl

theorem countPS_append_right {s t : String} (h : t.data.head? ≠ some 's') :
    countPS (s ++ t) = countPS s + countPS t := by
  rw [countPS_append, psBoundary_eq_zero_right _ h]
  rfl

theorem countPS_append_noPct_left {s t : String} (h : noPct s) :
    countPS (s ++ t) = countPS t := by
  rw [countPS_append, countPSChars_eq_zero h, psBoundary_eq_zero_left _ (getLast?_ne_of_not_mem h)]
  unfold countPS
  omega

theorem noPct_append {s t : String} (hs : noPct s) (ht : noPct t) : noPct (s ++ t) := by
  unfold noPct at *
  rw [strdata_append]
  intro hm
  rcases List.mem_append.mp hm with h | h
  · exact hs h
  · exact ht h

theorem pyJoin_nil (sep : String) : pyJoin sep [] = "" := rfl

theorem pyJoin_single (sep x : String) : pyJoin sep [x] = x := rfl

theorem pyJoin_cons_cons (sep x y : String) (ys : List String) :
    pyJoin sep (x :: y :: ys) = x ++ sep ++ pyJoin sep (y :: ys) := rfl

theorem noPct_pyJoin {sep : String} {xs : List String} (hsep : noPct sep)
    (hxs : ∀ x ∈ xs, noPct x) : noPct (pyJoin sep xs) := by
  induction xs with
  | nil =>
    intro hm
    simp [pyJoin] at hm
  | cons x ys ih =>
    cases ys with
    | nil => exact hxs x (List.mem_cons_self x [])
    | cons y ys' =>
      rw [pyJoin_cons_cons]
      refine noPct_append (noPct_append ?_ hsep) ?_
      · exact hxs x (List.mem_cons_self _ _)
      · exact ih (fun z hz => hxs z (List.mem_cons_of_mem _ hz))

/-! ### Column value validators

`notebook_functions.py` and `classes/data_processor.py` contain identical copies
of these validators; they are embedded once.  Each loop in the source returns
the same fixed message whichever token fails, so an all-token check is an exact
embedding. -/

/-- Matcher for the anchored regular expression `^PREF\d+$` used via `re.match`
by the identifier validators: the fixed token followed by one or more digits. -/
def matchHeadDigitsGo : List Char → List Char → Bool
  | [], rest => !rest.isEmpty && rest.all Char.isDigit
  | _ :: _, [] => false
  | p :: ps, c :: cs => c = p && matchHeadDigitsGo ps cs

/-- `re.match(r'^PREF\d+$', s)` as a Boolean test. -/
def matchHeadDigits (pre s : String) : Bool :=
  matchHeadDigitsGo pre.data s.data

/-- Drops one leading `'+'` or `'-'`. -/
def dropSign : List Char → List Char
  | '+' :: cs => cs
  | '-' :: cs => cs
  | cs => cs

/-- Digit run continuation that allows single underscores between digits, as
Python numeric literals do. -/
def digitsUAux : List Char → Bool
  | [] => true
  | '_' :: c :: cs => c.isDigit && digitsUAux cs
  | c :: cs => c.isDigit && digitsUAux cs

/-- A nonempty digit run (underscore separators allowed between digits). -/
def digitRun : List Char → Bool
  | [] => false
  | '_' :: _ => false
  | s => digitsUAux s

/-- Splits at the first occurrence of `sep`, if any. -/
def splitOnce (sep : Char) : List Char → List Char × Option (List Char)
  | [] => ([], none)
  | c :: cs =>
    if c = sep then ([], some cs)
    else
      let r := splitOnce sep cs
      (c :: r.1, r.2)

/-- The mantissa grammar of a Python float literal: `digits`, `digits.`,
`digits.digits` or `.digits`. -/
def mantissaOk (s : List Char) : Bool :=
  match splitOnce '.' s with
  | (ip, none) => digitRun ip
  | (ip, some fp) =>
    (digitRun ip && (fp.isEmpty || digitRun fp)) || (ip.isEmpty && digitRun fp)

/-- Recognizer for the strings accepted by Python `float(value)`: optional
surrounding whitespace and sign, then a decimal literal with an optional
exponent, or one of `inf`, `infinity`, `nan`, case-insensitively. -/
def pyFloatParseable (value : String) : Bool :=
  let s := dropSign ((pyStripChars value.data).map Char.toLower)
  if s = "inf".data || s = "infinity".data || s = "nan".data then true
  else
    match splitOnce 'e' s with
    | (m, none) => mantissaOk m
    | (m, some ex) => mantissaOk m && digitRun (dropSign ex)

/-- `validate_jid`: every comma-separated token, stripped and upper-cased, must
match `^JOB\d+$`. -/
def validate_jid (value : String) : Option String :=
  if (pySplit ',' value).all (fun job => matchHeadDigits "JOB" (pyUpper (pyStrip job))) then none
  else some "Error: For 'jid', value must be a comma-separated list of strings starting with 'JOB' followed by one or more digits."

/-- `validate_numeric_columns`: the value must parse as a Python float. -/
def validate_numeric_columns (column value : String) : Option String :=
  if pyFloatParseable value then none
  else some ("Error: For '" ++ column ++ "', value must be a number (including decimals).")

/-- `validate_account`: tokens must match `^GROUP\d+$`. -/
def validate_account (value : String) : Option String :=
  if (pySplit ',' value).all (fun g => matchHeadDigits "GROUP" (pyUpper (pyStrip g))) then none
  else some "Error: For 'account', value must be a comma-separated list of strings starting with 'GROUP' followed by one or more digits."

/-- `validate_username`: tokens must match `^USER\d+$`. -/
def validate_username (value : String) : Option String :=
  if (pySplit ',' value).all (fun u => matchHeadDigits "USER" (pyUpper (pyStrip u))) then none
  else some "Error: For 'username', value must be a comma-separated list of strings starting with 'USER' followed by one or more digits."

/-- `validate_host_list`: tokens must match `^NODE\d+$`. -/
def validate_host_list (value : String) : Option String :=
  if (pySplit ',' value).all (fun h => matchHeadDigits "NODE" (pyUpper (pyStrip h))) then none
  else some "Error: For 'host_list', value must be a comma-separated list of strings starting with 'NODE' followed by one or more digits."

/-- `validate_jobname`: tokens must match `^JOBNAME\d+$`. -/
def validate_jobname (value : String) : Option String :=
  if (pySplit ',' value).all (fun j => matchHeadDigits "JOBNAME" (pyUpper (pyStrip j))) then none
  else some "Error: For job name, value must be a comma-separated list of strings starting with 'JOBNAME' followed by one or more digits."

/-- `validate_host`: tokens must match `^NODE\d+$`. -/
def validate_host (value : String) : Option String :=
  if (pySplit ',' value).all (fun h => matchHeadDigits "NODE" (pyUpper (pyStrip h))) then none
  else some "Error: For 'host', value must be a comma-separated list of strings starting with 'NODE' followed by one or more digits."

/-- `validate_event`: exact membership in the fixed event list. -/
def validate_event (value : String) : Option String :=
  if value ∉ ["cpuuser", "block", "memused", "memused_minus_diskcache", "gpu_usage", "nfs"] then
    some "Error: For 'event', value must be one of: cpuuser, block, memused, memused_minus_diskcache, gpu_usage, nfs."
  else none

/-- `validate_unit`: exact membership in the fixed unit list. -/
def validate_unit (value : String) : Option String :=
  if value ∉ ["CPU %", "GPU %", "GB:memused", "GB:memused_minus_diskcache", "GB/s", "MB/s"] then
    some "Error: For 'unit', value must be one of: 'CPU %', 'GPU %', 'GB:memused', 'GB:memused_minus_diskcache', 'GB/s', 'MB/s'."
  else none

/-- `validate_value`: the value must parse as a Python float. -/
def validate_value (value : String) : Option String :=
  if pyFloatParseable value then none
  else some "Error: For 'value', the value must be a number."

/-- `validate_condition_jobs`: dispatch on the job-data column name; columns
outside the chain leave `error_message = None`. -/
def validate_condition_jobs (column value : String) : Option String :=
  if column = "jid" then validate_jid value
  else if column ∈ ["ncores", "ngpus", "nhosts", "timelimit"] then
    validate_numeric_columns column value
  else if column = "account" then validate_account value
  else if column = "username" then validate_username value
  else if column = "host_list" then validate_host_list value
  else if column = "jobname" then validate_jobname value
  else none

/-- `validate_condition_hosts`: dispatch on the host-data column name; columns
outside the chain leave `error_message = None`. -/
def validate_condition_hosts (column value : String) : Option String :=
  if column = "event" then validate_event value
  else if column = "host" then validate_host value
  else if column = "jid" then validate_jid value
  else if column = "unit" then validate_unit value
  else if column = "value" then validate_value value
  else none

/-! ### Condition rendering and placeholder accounting -/

/-- Does `s` start with `p`? -/
def startsWithChars : List Char → List Char → Bool
  | [], _ => true
  | _ :: _, [] => false
  | p :: ps, c :: cs => p = c && startsWithChars ps cs

/-- Python's `p in s` substring test on character lists. -/
def containsSub (p : List Char) : List Char → Bool
  | [] => startsWithChars p []
  | c :: cs => startsWithChars p (c :: cs) || containsSub p cs

/-- Rendering of one condition in the widget list: `f"{col} {op} '{val}'"`. -/
def displayCond (c : String × String × String) : String :=
  c.1 ++ " " ++ c.2.1 ++ " '" ++ c.2.2 ++ "'"

/-- Rendering of one condition inside the WHERE clause: `f"{col} {op} {val}"`. -/
def condFrag (c : String × String × String) : String :=
  c.1 ++ " " ++ c.2.1 ++ " " ++ c.2.2

/-- The WHERE-clause attachment step shared by the query builders:
`if local_conditions: query += f" WHERE {where_clause}"` with
`where_clause = " AND ".join(f"{col} {op} {val}")`. -/
def appendWhere (query : String) (lst : List (String × String × String)) : String :=
  match lst with
  | [] => query
  | _ :: _ => query ++ (" WHERE " ++ pyJoin " AND " (lst.map condFrag))

/-- Total number of `"%s"` placeholders contributed by the value slots of a
condition list. -/
def sumPS (conds : List (String × String × String)) : Nat :=
  (conds.map (fun c => countPS c.2.2)).sum

theorem sumPS_nil : sumPS [] = 0 := rfl

theorem sumPS_cons (c : String × String × String) (l : List (String × String × String)) :
    sumPS (c :: l) = countPS c.2.2 + sumPS l := by
  simp [sumPS]

theorem sumPS_append (a b : List (String × String × String)) :
    sumPS (a ++ b) = sumPS a + sumPS b := by
  simp [sumPS]

theorem getLast?_data_append_right {t : String} (s : String) (h : t.data ≠ []) :
    (s ++ t).data.getLast? = t.data.getLast? := by
  rw [strdata_append]
  exact List.getLast?_append_of_ne_nil _ h

theorem countPS_condFrag {c : String × String × String} (hcol : noPct c.1)
    (hop : noPct c.2.1) : countPS (condFrag c) = countPS c.2.2 := by
  unfold condFrag
  have hpre : noPct (c.1 ++ " " ++ c.2.1 ++ " ") :=
    noPct_append (noPct_append (noPct_append hcol (by decide)) hop) (by decide)
  exact countPS_append_noPct_left hpre

theorem condFrag_getLast_ne_pct (c : String × String × String)
    (h : c.2.2.data.getLast? ≠ some '%') :
    (condFrag c).data.getLast? ≠ some '%' := by
  unfold condFrag
  by_cases hv : c.2.2.data = []
  · have hdata : (c.1 ++ " " ++ c.2.1 ++ " " ++ c.2.2).data
        = (c.1 ++ " " ++ c.2.1 ++ " ").data := by
      rw [strdata_append (c.1 ++ " " ++ c.2.1 ++ " ") c.2.2, hv, List.append_nil]
    rw [hdata, getLast?_data_append_right _ (by decide)]
    decide
  · rw [getLast?_data_append_right _ hv]
    exact h

theorem countPS_pyJoinAnd (fs : List (String × String × String))
    (hcol : ∀ c ∈ fs, noPct c.1) (hop : ∀ c ∈ fs, noPct c.2.1)
    (hval : ∀ c ∈ fs, c.2.2.data.getLast? ≠ some '%') :
    countPS (pyJoin " AND " (fs.map condFrag)) = sumPS fs := by
  induction fs with
  | nil => rfl
  | cons c fs' ih =>
    cases fs' with
    | nil =>
      show countPS (condFrag c) = sumPS [c]
      rw [countPS_condFrag (hcol c (List.mem_cons_self _ _)) (hop c (List.mem_cons_self _ _))]
      rw [sumPS_cons, sumPS_nil]
      omega
    | cons c2 fs'' =>
      rw [List.map_cons, List.map_cons, pyJoin_cons_cons, ← List.map_cons condFrag c2 fs'']
      have h2 : ((condFrag c ++ " AND ")).data.getLast? ≠ some '%' := by
        rw [getLast?_data_append_right _ (by decide)]
        decide
      rw [countPS_append_left h2]
      have h1 : countPS (condFrag c ++ " AND ") = countPS (condFrag c) := by
        rw [countPS_append_right (by decide)]
        have hz : countPS " AND " = 0 := by decide
        omega
      rw [h1]
      rw [ih (fun x hx => hcol x (List.mem_cons_of_mem _ hx))
        (fun x hx => hop x (List.mem_cons_of_mem _ hx))
        (fun x hx => hval x (List.mem_cons_of_mem _ hx))]
      rw [countPS_condFrag (hcol c (List.mem_cons_self _ _)) (hop c (List.mem_cons_self _ _))]
      rw [sumPS_cons, sumPS_cons, sumPS_cons]

theorem countPS_joinRep (n : Nat) : countPS (pyJoin ", " (List.replicate n "%s")) = n := by
  induction n with
  | zero => rfl
  | succ m ih =>
    cases m with
    | zero => decide
    | succ k =>
      rw [List.replicate_succ, List.replicate_succ, pyJoin_cons_cons]
      have h2 : ("%s" ++ ", ").data.getLast? ≠ some '%' := by
        rw [getLast?_data_append_right _ (by decide)]
        decide
      rw [countPS_append_left h2, ← List.replicate_succ, ih]
      have h1 : countPS ("%s" ++ ", ") = 1 := by decide
      omega

theorem countPS_inClause (n : Nat) :
    countPS ("(" ++ pyJoin ", " (List.replicate n "%s") ++ ")") = n := by
  rw [countPS_append_right (by decide), countPS_append_noPct_left (by decide), countPS_joinRep]
  have hz : countPS ")" = 0 := by decide
  omega

theorem inClause_getLast_ne_pct (n : Nat) :
    ("(" ++ pyJoin ", " (List.replicate n "%s") ++ ")").data.getLast? ≠ some '%' := by
  rw [getLast?_data_append_right _ (by decide)]
  decide

/-! ### Shared schema data -/

/-- The `valid_columns` set of `construct_job_data_query` (identical in
`notebook_functions.py` and `classes/data_processor.py`). -/
def valid_columns : List String :=
  ["jid", "submit_time", "start_time", "end_time", "runtime", "timelimit", "node_hrs",
   "nhosts", "ncores", "ngpus", "username", "account", "queue", "state", "jobname",
   "exitcode", "host_list", "*"]

/-! ### `notebook_functions.py` -/

namespace NF

/-- Module constant `MAX_DAYS_HOSTS = 31`. -/
def MAX_DAYS_HOSTS : Int := 31

/-- Module constant `MAX_DAYS_JOBS = 180`. -/
def MAX_DAYS_JOBS : Int := 180

/-- The observable outcomes of a date-validation click: the button text becomes
"Invalid Times", "Time Window Too Large" or "Times Valid"; `Unvalidated` is the
state before any click. -/
inductive TimeWindowState
  | Unvalidated
  | Valid
  | InvalidOrder
  | WindowTooLarge
deriving DecidableEq

/-- `on_button_clicked_jobs` (lines 125-146; `on_button_clicked_hosts` and the
class-based copies are identical up to the constant): timestamps are modelled
as seconds, and Python `timedelta.days` is floor division of the difference by
86400.  Both datetime pickers hold values, so the truthiness guards of the
source are dropped. -/
def on_button_clicked_jobs (start_time end_time max_days : Int) : TimeWindowState :=
  let time_difference_days := (end_time - start_time).fdiv 86400
  if start_time ≥ end_time then .InvalidOrder
  else if end_time ≤ start_time then .InvalidOrder
  else if time_difference_days > max_days then .WindowTooLarge
  else .Valid

/-- `construct_job_data_query` (notebook_functions.py lines 922-969).  The
`raise ValueError` is modelled as `Except.error`; datetime parameters enter the
parameter list as their string rendering. -/
def construct_job_data_query (where_conditions_jobs : List (String × String × String))
    (job_data_columns_dropdown : List String) (validate_button_jobs : String)
    (start_time_jobs end_time_jobs : String) : Except String (String × List String) :=
  if !(job_data_columns_dropdown.all (fun column => column ∈ valid_columns)) then
    .error "Invalid column name selected"
  else
    let selected_columns_str := pyJoin ", " job_data_columns_dropdown
    let query := "SELECT " ++ selected_columns_str ++ " FROM job_data"
    let qp :=
      match where_conditions_jobs with
      | [] => (query, ([] : List String))
      | _ :: _ =>
        let where_clause :=
          pyJoin " AND " (where_conditions_jobs.map (fun c => c.1 ++ " " ++ c.2.1 ++ " %s"))
        (query ++ (" WHERE " ++ where_clause), where_conditions_jobs.map (fun c => c.2.2))
    if validate_button_jobs = "Times Valid" then
      .ok (qp.1 ++ (match where_conditions_jobs with
                    | [] => " WHERE start_time BETWEEN %s AND %s"
                    | _ :: _ => " AND start_time BETWEEN %s AND %s"),
           qp.2 ++ [start_time_jobs, end_time_jobs])
    else .ok qp

/-- `construct_query_hosts` (notebook_functions.py lines 880-918): like the
jobs variant but over `host_data` with time column `time`, and with no
column-name validation. -/
def construct_query_hosts (where_conditions_hosts : List (String × String × String))
    (host_data_columns_dropdown : List String) (validate_button_hosts : String)
    (start_time_hosts end_time_hosts : String) : String × List String :=
  let selected_columns := pyJoin ", " host_data_columns_dropdown
  let query := "SELECT " ++ selected_columns ++ " FROM host_data"
  let qp :=
    match where_conditions_hosts with
    | [] => (query, ([] : List String))
    | _ :: _ =>
      let where_clause :=
        pyJoin " AND " (where_conditions_hosts.map (fun c => c.1 ++ " " ++ c.2.1 ++ " %s"))
      (query ++ (" WHERE " ++ where_clause), where_conditions_hosts.map (fun c => c.2.2))
  if validate_button_hosts = "Times Valid" then
    (qp.1 ++ (match where_conditions_hosts with
              | [] => " WHERE time BETWEEN %s AND %s"
              | _ :: _ => " AND time BETWEEN %s AND %s"),
     qp.2 ++ [start_time_hosts, end_time_hosts])
  else qp

/-- The session state the jobs condition handlers mutate: the validity flag and
the ordered condition list (module-level globals in the source). -/
structure JobsSession where
  time_window_valid_jobs : Bool
  where_conditions_jobs : List (String × String × String)
deriving DecidableEq

/-- Outcome reported by `add_condition_jobs` in its error-output widget. -/
inductive AddOutcome
  | windowNotValidated
  | validationError (msg : String)
  | added
deriving DecidableEq

/-- `add_condition_jobs` (lines 85-109): while the time window is not
validated it prints "Please enter a valid time window before adding
conditions." and returns before reading any widget, so the column validator is
never consulted; otherwise it validates, and appends only on success.  The
handler's extraction of the value from the active widget (upper-casing plain
text input) happens before this logic; `value` is the extracted value. -/
def add_condition_jobs (st : JobsSession) (column operator value : String) :
    AddOutcome × JobsSession :=
  if !st.time_window_valid_jobs then (.windowNotValidated, st)
  else
    match validate_condition_jobs column value with
    | some msg => (.validationError msg, st)
    | none =>
      (.added,
       { st with
         where_conditions_jobs := st.where_conditions_jobs ++ [(column, operator, value)] })

/-- The loop of `remove_condition_jobs`: per selected display string, look up
its index in the options snapshot and pop that index from the shrinking
condition list; a `ValueError`/`IndexError` aborts the loop, keeping the pops
already performed. -/
def remove_condition_jobs_go (options : List String) :
    List (String × String × String) → List String → List (String × String × String)
  | conds, [] => conds
  | conds, sel :: rest =>
    match indexOfOpt options sel with
    | none => conds
    | some i =>
      match popIdx conds i with
      | none => conds
      | some conds' => remove_condition_jobs_go options conds' rest

/-- `remove_condition_jobs` (lines 113-121): the options list is the rendering
of the conditions when the widget was last refreshed — it is not updated inside
the loop. -/
def remove_condition_jobs (conds : List (String × String × String))
    (selected : List String) : List (String × String × String) :=
  remove_condition_jobs_go (conds.map displayCond) conds selected

/-- Chunk-size computation of `execute_sql_query_chunked` (line 593):
`total_rows // target_num_chunks if total_rows > target_num_chunks else
total_rows`. -/
def chunked_chunksize (total_rows target_num_chunks : Nat) : Nat :=
  if total_rows > target_num_chunks then total_rows / target_num_chunks else total_rows

end NF

/-! ### `classes/data_processor.py` -/

namespace DP

/-- The widget state `DataProcessor.construct_job_data_query` reads through its
`base_widget_manager`. -/
structure JobsWidgets where
  distinct_checkbox_jobs : Bool
  in_values_textarea_jobs : String
  in_values_dropdown_jobs : String
  order_by_dropdown_jobs : String
  order_by_direction_dropdown_jobs : String
  limit_input_jobs : Int
deriving DecidableEq

/-- The widget state `DataProcessor.construct_query_hosts` reads, including the
module-held parallel list of bound values. -/
structure HostsWidgets where
  distinct_checkbox : Bool
  where_conditions_values : List String
  in_values_textarea : String
  in_values_dropdown : String
  order_by_dropdown : String
  order_by_direction_dropdown : String
  limit_input : Int
deriving DecidableEq

/-- `DataProcessor.construct_job_data_query` (data_processor.py lines 330-400):
validates the selected columns, then assembles SELECT/DISTINCT, the per-condition
`%s` clauses, the BETWEEN time clause, the IN clause, ORDER BY and LIMIT, with
the parameter list extended in the same order. -/
def construct_job_data_query (w : JobsWidgets)
    (where_conditions_jobs : List (String × String × String))
    (job_data_columns_dropdown : List String) (validate_button_jobs : String)
    (start_time_jobs end_time_jobs : String) : Except String (String × List String) :=
  if !(job_data_columns_dropdown.all (fun column => column ∈ valid_columns)) then
    .error "Invalid column name selected"
  else
    let selected_columns_str := pyJoin ", " job_data_columns_dropdown
    let query :=
      if w.distinct_checkbox_jobs then
        "SELECT DISTINCT " ++ selected_columns_str ++ " FROM job_data"
      else "SELECT " ++ selected_columns_str ++ " FROM job_data"
    let local_conditions := where_conditions_jobs.map (fun c => (c.1, c.2.1, "%s"))
    let params := where_conditions_jobs.map (fun c => c.2.2)
    let lp :=
      if validate_button_jobs = "Times Valid" then
        (local_conditions ++ [("start_time", "BETWEEN", "%s AND %s")],
         params ++ [start_time_jobs, end_time_jobs])
      else (local_conditions, params)
    let in_values := (pySplit ',' w.in_values_textarea_jobs).map pyStrip
    let lp2 :=
      match in_values with
      | [] => lp
      | v0 :: _ =>
        if v0 ≠ "" then
          (lp.1 ++ [(w.in_values_dropdown_jobs, "IN",
              "(" ++ pyJoin ", " (List.replicate in_values.length "%s") ++ ")")],
           lp.2 ++ in_values)
        else lp
    let query2 := appendWhere query lp2.1
    let query3 :=
      if w.order_by_dropdown_jobs ≠ "None" then
        query2 ++ (" ORDER BY " ++ w.order_by_dropdown_jobs ++ " "
          ++ w.order_by_direction_dropdown_jobs)
      else query2
    let query4 :=
      if w.limit_input_jobs > 0 then query3 ++ (" LIMIT " ++ toString w.limit_input_jobs)
      else query3
    .ok (query4, lp2.2)

/-- `DataProcessor.construct_query_hosts` (data_processor.py lines 285-328):
the host conditions already carry their textual value slot (normally `"%s"`),
the bound values live in the parallel `where_conditions_values` list, and — in
contrast to the jobs variant — no column-name validation is performed. -/
def construct_query_hosts (w : HostsWidgets)
    (where_conditions_hosts : List (String × String × String))
    (host_data_columns_dropdown : List String) (validate_button_hosts : String)
    (start_time_hosts end_time_hosts : String) : String × List String :=
  let selected_columns := pyJoin ", " host_data_columns_dropdown
  let query :=
    if w.distinct_checkbox then "SELECT DISTINCT " ++ selected_columns ++ " FROM host_data"
    else "SELECT " ++ selected_columns ++ " FROM host_data"
  let local_conditions := where_conditions_hosts
  let params := w.where_conditions_values
  let lp :=
    if validate_button_hosts = "Times Valid" then
      (local_conditions ++ [("time", "BETWEEN", "%s AND %s")],
       params ++ [start_time_hosts, end_time_hosts])
    else (local_conditions, params)
  let in_values := (pySplit ',' w.in_values_textarea).map pyStrip
  let lp2 :=
    match in_values with
    | [] => lp
    | v0 :: _ =>
      if v0 ≠ "" then
        (lp.1 ++ [(w.in_values_dropdown, "IN",
            "(" ++ pyJoin ", " (List.replicate in_values.length "%s") ++ ")")],
         lp.2 ++ in_values)
      else lp
  let query2 := appendWhere query lp2.1
  let query3 :=
    if w.order_by_dropdown ≠ "None" then
      query2 ++ (" ORDER BY " ++ w.order_by_dropdown ++ " " ++ w.order_by_direction_dropdown)
    else query2
  let query4 :=
    if w.limit_input > 0 then query3 ++ (" LIMIT " ++ toString w.limit_input) else query3
  (query4, lp2.2)

end DP

/-! ### `classes/widget_state_manager.py` (host-table condition handlers) -/

namespace WSM

/-- The host-table session state the handlers mutate. -/
structure HostsSession where
  time_window_valid_hosts : Bool
  where_conditions_hosts : List (String × String × String)
  where_conditions_values : List String
deriving DecidableEq

/-- The value preprocessing in `on_add_condition_button_hosts_clicked`:
`if 'job' in value.casefold() or 'node' in value.casefold(): value =
value.upper()`. -/
def hostValuePreprocess (value : String) : String :=
  if containsSub "job".data (pyLower value).data
      || containsSub "node".data (pyLower value).data then
    pyUpper value
  else value

/-- `on_add_condition_button_hosts_clicked` (widget_state_manager.py lines
223-277): gated on the validity flag; on successful validation appends the
condition with a `"%s"` placeholder slot and stores the actual value in the
parallel value list. -/
def on_add_condition_button_hosts_clicked (st : HostsSession)
    (column operator value : String) : HostsSession :=
  if !st.time_window_valid_hosts then st
  else
    let value := hostValuePreprocess value
    match validate_condition_hosts column value with
    | some _ => st
    | none =>
      { st with
        where_conditions_hosts := st.where_conditions_hosts ++ [(column, operator, "%s")],
        where_conditions_values := st.where_conditions_values ++ [value] }

/-- The loop of `on_remove_condition_button_hosts_clicked` (lines 326-337): per
selected display string, look up its index in the widget's options snapshot and
pop that index first from the value list, then from the condition list; a
`ValueError`/`IndexError` propagates out, keeping the pops already performed. -/
def hosts_remove_go (options : List String) :
    HostsSession → List String → HostsSession
  | st, [] => st
  | st, sel :: rest =>
    match indexOfOpt options sel with
    | none => st
    | some i =>
      match popIdx st.where_conditions_values i with
      | none => st
      | some values' =>
        match popIdx st.where_conditions_hosts i with
        | none => { st with where_conditions_values := values' }
        | some conds' =>
          hosts_remove_go options
            { st with where_conditions_hosts := conds',
                      where_conditions_values := values' } rest

/-- `on_remove_condition_button_hosts_clicked`, with the options list held by
the selection widget at click time passed explicitly. -/
def on_remove_condition_button_hosts_clicked (st : HostsSession)
    (options selected : List String) : HostsSession :=
  hosts_remove_go options st selected

/-- One user action on the host-table session. -/
inductive HostOp
  | add (column operator value : String)
  | removeMany (options : List String) (selected : List String)

/-- Applying one host-table action. -/
def hostStep (st : HostsSession) : HostOp → HostsSession
  | .add c o v => on_add_condition_button_hosts_clicked st c o v
  | .removeMany options selected => on_remove_condition_button_hosts_clicked st options selected

/-- Running a sequence of host-table actions. -/
def hostRun (st : HostsSession) (ops : List HostOp) : HostsSession :=
  ops.foldl hostStep st

end WSM

/-! ### `classes/database_manager.py` -/

namespace DBM

/-- Chunk-size computation of `execute_sql_query_and_stream_to_disk`
(line 157): `max(1, total_rows // target_num_chunks)`. -/
def stream_chunksize (total_rows target_num_chunks : Nat) : Nat :=
  max 1 (total_rows / target_num_chunks)

/-- Result of the disk-streaming loop: indices of the chunk files written, the
running byte total, and whether the whole result set was streamed. -/
structure StreamOutcome where
  written : List Nat
  total_space_used : Nat
  completed : Bool
deriving DecidableEq

/-- The chunk loop of `execute_sql_query_and_stream_to_disk` (lines 159-187):
`free_disk_space` is probed once before the loop; for each chunk (whose
serialized byte size is the corresponding entry of the list), the file is
written and the size added to the running total only when
`total_space_used + csv_size < free_disk_space`; otherwise the function prints
a message and returns immediately — without raising — leaving the files already
written on disk. -/
def stream_go (free_disk_space : Nat) (total_space_used chunk_number : Nat) :
    List Nat → StreamOutcome
  | [] => ⟨[], total_space_used, true⟩
  | csv_size :: rest =>
    if total_space_used + csv_size < free_disk_space then
      let r := stream_go free_disk_space (total_space_used + csv_size) (chunk_number + 1) rest
      ⟨chunk_number :: r.written, r.total_space_used, r.completed⟩
    else ⟨[], total_space_used, false⟩

/-- The disk-stream chunk loop of a whole execution, starting from a zero byte
total and chunk index 0. -/
def execute_stream_to_disk (free_disk_space : Nat) (sizes : List Nat) : StreamOutcome :=
  stream_go free_disk_space 0 0 sizes

end DBM

/-! ### Helper lemmas for the claim theorems -/

theorem head?_data_append_left {s : String} (t : String) (h : s.data ≠ []) :
    (s ++ t).data.head? = s.data.head? := by
  rw [strdata_append]
  cases hs : s.data with
  | nil => exact absurd hs h
  | cons c cs => rfl

theorem data_append_ne_nil_left {s : String} (t : String) (h : s.data ≠ []) :
    (s ++ t).data ≠ [] := by
  rw [strdata_append]
  intro hc
  exact h (List.append_eq_nil.mp hc).1

theorem countPS_opt_suffix (X suffix : String) (p : Prop) [Decidable p]
    (hn : noPct suffix) (hh : suffix.data.head? ≠ some 's') :
    countPS (if p then X ++ suffix else X) = countPS X := by
  by_cases hp : p
  · rw [if_pos hp, countPS_append_right hh, countPS_eq_zero hn]
    omega
  · rw [if_neg hp]

theorem countPS_appendWhere (query : String) (lst : List (String × String × String))
    (hq : noPct query)
    (hcands : ∀ c ∈ lst, noPct c.1 ∧ noPct c.2.1 ∧ c.2.2.data.getLast? ≠ some '%') :
    countPS (appendWhere query lst) = sumPS lst := by
  cases lst with
  | nil => exact countPS_eq_zero hq
  | cons c rest =>
    show countPS (query ++ (" WHERE " ++ pyJoin " AND " ((c :: rest).map condFrag)))
      = sumPS (c :: rest)
    rw [countPS_append_noPct_left hq, countPS_append_noPct_left (by decide)]
    exact countPS_pyJoinAnd _ (fun x hx => (hcands x hx).1)
      (fun x hx => (hcands x hx).2.1) (fun x hx => (hcands x hx).2.2)

theorem sideAppend {P : (String × String × String) → Prop}
    {l1 l2 : List (String × String × String)}
    (h1 : ∀ c ∈ l1, P c) (h2 : ∀ c ∈ l2, P c) : ∀ c ∈ l1 ++ l2, P c := by
  intro x hx
  rcases List.mem_append.mp hx with h | h
  · exact h1 x h
  · exact h2 x h

theorem sumPS_map_ps (conds : List (String × String × String)) :
    sumPS (conds.map (fun c => (c.1, c.2.1, "%s"))) = conds.length := by
  induction conds with
  | nil => rfl
  | cons c rest ih =>
    rw [List.map_cons, sumPS_cons, ih]
    have h1 : countPS "%s" = 1 := by decide
    rw [h1, List.length_cons]
    omega

theorem popIdx_spec {α : Type} : ∀ (xs : List α) (i : Nat) (ys : List α),
    popIdx xs i = some ys → i < xs.length ∧ ys.length + 1 = xs.length ∧ ∀ y ∈ ys, y ∈ xs := by
  intro xs
  induction xs with
  | nil =>
    intro i ys h
    simp [popIdx] at h
  | cons x rest ih =>
    intro i ys h
    cases i with
    | zero =>
      have hy : rest = ys := by
        simpa [popIdx] using h
      subst hy
      refine ⟨by simp, by simp, ?_⟩
      intro y hy
      exact List.mem_cons_of_mem _ hy
    | succ n =>
      have h' : (popIdx rest n).map (fun zs => x :: zs) = some ys := by
        simpa [popIdx] using h
      rcases Option.map_eq_some'.mp h' with ⟨zs, hz, hx⟩
      obtain ⟨h1, h2, h3⟩ := ih n zs hz
      subst hx
      refine ⟨by simpa using h1, by simpa using h2, ?_⟩
      intro y hy
      rcases List.mem_cons.mp hy with h | h
      · exact h ▸ List.mem_cons_self _ _
      · exact List.mem_cons_of_mem _ (h3 y h)

theorem popIdx_isSome_of_lt {α : Type} :
    ∀ (xs : List α) (i : Nat), i < xs.length → ∃ ys, popIdx xs i = some ys := by
  intro xs
  induction xs with
  | nil =>
    intro i h
    simp at h
  | cons x rest ih =>
    intro i h
    cases i with
    | zero => exact ⟨rest, rfl⟩
    | succ n =>
      obtain ⟨ys, hy⟩ := ih n (by simpa using h)
      exact ⟨x :: ys, by simp [popIdx, hy]⟩

theorem stream_go_spec (sizes : List Nat) : ∀ (free used idx : Nat),
    (((DBM.stream_go free used idx sizes).completed = true) ↔
      (∀ j < sizes.length, used + ((sizes.take (j + 1)).sum) < free))
    ∧ ((DBM.stream_go free used idx sizes).completed = true →
        (DBM.stream_go free used idx sizes).written
            = (List.range sizes.length).map (fun r => r + idx)
        ∧ (DBM.stream_go free used idx sizes).total_space_used = used + sizes.sum)
    ∧ ((DBM.stream_go free used idx sizes).completed = false →
        ∃ k, k < sizes.length
          ∧ (∀ j < k, used + ((sizes.take (j + 1)).sum) < free)
          ∧ free ≤ used + (sizes.take (k + 1)).sum
          ∧ (DBM.stream_go free used idx sizes).written = (List.range k).map (fun r => r + idx)
          ∧ (DBM.stream_go free used idx sizes).total_space_used
              = used + (sizes.take k).sum) := by
  induction sizes with
  | nil =>
    intro free used idx
    refine ⟨by simp [DBM.stream_go], ?_, ?_⟩
    · intro _
      simp [DBM.stream_go]
    · intro h
      simp [DBM.stream_go] at h
  | cons c rest ih =>
    intro free used idx
    by_cases hlt : used + c < free
    · have hgo : DBM.stream_go free used idx (c :: rest) =
          ⟨idx :: (DBM.stream_go free (used + c) (idx + 1) rest).written,
           (DBM.stream_go free (used + c) (idx + 1) rest).total_space_used,
           (DBM.stream_go free (used + c) (idx + 1) rest).completed⟩ := by
        simp [DBM.stream_go, hlt]
      obtain ⟨ih1, ih2, ih3⟩ := ih free (used + c) (idx + 1)
      refine ⟨?_, ?_, ?_⟩
      · rw [hgo]
        simp only []
        rw [ih1]
        constructor
        · intro hall j hj
          cases j with
          | zero => simpa using hlt
          | succ j' =>
            have := hall j' (by simpa using hj)
            simp only [List.take_succ_cons, List.sum_cons] at *
            omega
        · intro hall j hj
          have := hall (j + 1) (by simpa using Nat.succ_lt_succ hj)
          simp only [List.take_succ_cons, List.sum_cons] at *
          omega
      · intro hc
        rw [hgo] at hc ⊢
        simp only [] at hc ⊢
        obtain ⟨hw, hu⟩ := ih2 hc
        constructor
        · rw [hw, List.length_cons, List.range_succ_eq_map, List.map_cons, List.map_map]
          congr 1
          · omega
          · apply List.map_congr_left
            intro a _
            show a + (idx + 1) = a.succ + idx
            omega
        · rw [hu, List.sum_cons]
          omega
      · intro hc
        rw [hgo] at hc ⊢
        simp only [] at hc ⊢
        obtain ⟨k, hk, hok, hfail, hw, hu⟩ := ih3 hc
        refine ⟨k + 1, by simpa using Nat.succ_lt_succ hk, ?_, ?_, ?_, ?_⟩
        · intro j hj
          cases j with
          | zero => simpa using hlt
          | succ j' =>
            have := hok j' (by omega)
            simp only [List.take_succ_cons, List.sum_cons] at *
            omega
        · simp only [List.take_succ_cons, List.sum_cons]
          omega
        · rw [hw, List.range_succ_eq_map, List.map_cons, List.map_map]
          congr 1
          · omega
          · apply List.map_congr_left
            intro a _
            show a + (idx + 1) = a.succ + idx
            omega
        · rw [hu, List.take_succ_cons, List.sum_cons]
          omega
    · have hgo : DBM.stream_go free used idx (c :: rest) = ⟨[], used, false⟩ := by
        simp [DBM.stream_go, hlt]
      refine ⟨?_, ?_, ?_⟩
      · rw [hgo]
        simp only [Bool.false_eq_true, false_iff]
        intro hall
        have := hall 0 (by simp)
        simp only [List.take_succ_cons, List.take_zero, List.sum_cons, List.sum_nil] at this
        omega
      · intro hc
        rw [hgo] at hc
        simp at hc
      · intro _
        rw [hgo]
        refine ⟨0, by simp, by omega, ?_, by simp, by simp⟩
        simp only [List.take_succ_cons, List.take_zero, List.sum_cons, List.sum_nil]
        omega

theorem sumPS_of_all_ps {l : List (String × String × String)}
    (h : ∀ c ∈ l, c.2.2 = "%s") : sumPS l = l.length := by
  induction l with
  | nil => rfl
  | cons c rest ih =>
    rw [sumPS_cons, h c (List.mem_cons_self _ _), ih (fun x hx => h x (List.mem_cons_of_mem _ hx))]
    have h1 : countPS "%s" = 1 := by decide
    rw [h1, List.length_cons]
    omega

theorem host_add_lockstep (st : WSM.HostsSession) (column operator value : String)
    (h1 : ∀ x ∈ st.where_conditions_hosts, x.2.2 = "%s")
    (h2 : st.where_conditions_hosts.length = st.where_conditions_values.length) :
    (∀ x ∈ (WSM.on_add_condition_button_hosts_clicked st column operator value).where_conditions_hosts,
        x.2.2 = "%s")
    ∧ (WSM.on_add_condition_button_hosts_clicked st column operator value).where_conditions_hosts.length
        = (WSM.on_add_condition_button_hosts_clicked st column operator value).where_conditions_values.length := by
  unfold WSM.on_add_condition_button_hosts_clicked
  cases hb : st.time_window_valid_hosts with
  | false => exact ⟨h1, h2⟩
  | true =>
    simp only [Bool.not_true, Bool.false_eq_true, if_false]
    cases hv : validate_condition_hosts column (WSM.hostValuePreprocess value) with
    | some msg => exact ⟨h1, h2⟩
    | none =>
      refine ⟨?_, ?_⟩
      · intro x hx
        rcases List.mem_append.mp hx with h | h
        · exact h1 x h
        · simp only [List.mem_singleton] at h
          rw [h]
      · simp only [List.length_append, List.length_cons, List.length_nil]
        omega

theorem hosts_remove_lockstep (options : List String) :
    ∀ (selected : List String) (st : WSM.HostsSession),
    (∀ c ∈ st.where_conditions_hosts, c.2.2 = "%s") →
    st.where_conditions_hosts.length = st.where_conditions_values.length →
    (∀ c ∈ (WSM.hosts_remove_go options st selected).where_conditions_hosts, c.2.2 = "%s")
    ∧ (WSM.hosts_remove_go options st selected).where_conditions_hosts.length
        = (WSM.hosts_remove_go options st selected).where_conditions_values.length := by
  intro selected
  induction selected with
  | nil =>
    intro st h1 h2
    exact ⟨h1, h2⟩
  | cons sel rest ih =>
    intro st h1 h2
    unfold WSM.hosts_remove_go
    split
    · exact ⟨h1, h2⟩
    · rename_i i hidx
      split
      · exact ⟨h1, h2⟩
      · rename_i values' hv
        split
        · rename_i hc
          obtain ⟨hvi, hvlen, _⟩ := popIdx_spec _ _ _ hv
          have hci : i < st.where_conditions_hosts.length := by omega
          obtain ⟨conds', hcs⟩ := popIdx_isSome_of_lt _ _ hci
          rw [hcs] at hc
          simp at hc
        · rename_i conds' hcs
          obtain ⟨hvi, hvlen, _⟩ := popIdx_spec _ _ _ hv
          obtain ⟨_, hclen, hcmem⟩ := popIdx_spec _ _ _ hcs
          apply ih
          · intro c hcin
            exact h1 c (hcmem c hcin)
          · show conds'.length = values'.length
            omega

theorem host_step_lockstep (st : WSM.HostsSession) (op : WSM.HostOp)
    (h1 : ∀ x ∈ st.where_conditions_hosts, x.2.2 = "%s")
    (h2 : st.where_conditions_hosts.length = st.where_conditions_values.length) :
    (∀ x ∈ (WSM.hostStep st op).where_conditions_hosts, x.2.2 = "%s")
    ∧ (WSM.hostStep st op).where_conditions_hosts.length
        = (WSM.hostStep st op).where_conditions_values.length := by
  cases op with
  | add c o v => exact host_add_lockstep st c o v h1 h2
  | removeMany options selected => exact hosts_remove_lockstep options selected st h1 h2

theorem host_run_lockstep : ∀ (ops : List WSM.HostOp) (st : WSM.HostsSession),
    (∀ x ∈ st.where_conditions_hosts, x.2.2 = "%s") →
    st.where_conditions_hosts.length = st.where_conditions_values.length →
    (∀ x ∈ (WSM.hostRun st ops).where_conditions_hosts, x.2.2 = "%s")
    ∧ (WSM.hostRun st ops).where_conditions_hosts.length
        = (WSM.hostRun st ops).where_conditions_values.length := by
  intro ops
  induction ops with
  | nil =>
    intro st h1 h2
    exact ⟨h1, h2⟩
  | cons op rest ih =>
    intro st h1 h2
    obtain ⟨g1, g2⟩ := host_step_lockstep st op h1 h2
    exact ih (WSM.hostStep st op) g1 g2

/-! ### Date constants for the dated examples (epoch seconds, UTC midnight) -/

def ts20240101 : Int := 1704067200

def ts20240110 : Int := 1704844800

def ts20240301 : Int := 1709251200

/-! ### Claim theorems -/

/-- Claim C3: a `validate(start, end)` click yields `InvalidOrder` when
`start ≥ end`, otherwise `WindowTooLarge` when the span in whole days exceeds
`max_days`, otherwise `Valid`; and the three dated examples with `max = 31`
give `InvalidOrder`, `WindowTooLarge` and `Valid` respectively. -/
theorem C3_time_window_validation :
    (∀ s e m : Int, NF.on_button_clicked_jobs s e m =
      (if s ≥ e then NF.TimeWindowState.InvalidOrder
       else if (e - s).fdiv 86400 > m then NF.TimeWindowState.WindowTooLarge
       else NF.TimeWindowState.Valid))
    ∧ NF.on_button_clicked_jobs ts20240110 ts20240101 31 = NF.TimeWindowState.InvalidOrder
    ∧ NF.on_button_clicked_jobs ts20240101 ts20240301 31 = NF.TimeWindowState.WindowTooLarge
    ∧ NF.on_button_clicked_jobs ts20240101 ts20240110 31 = NF.TimeWindowState.Valid := by
  refine ⟨?_, by decide, by decide, by decide⟩
  intro s e m
  simp only [NF.on_button_clicked_jobs]
  split_ifs <;> rfl

/-- Claim C2: the end-to-end jobs example — one accepted condition
`(account, =, GROUP12)` plus a validated window builds exactly the claimed text
and parameter order (and the window 2024-01-01..2024-01-10 with max 180 is
`Valid`); and in general a "Times Valid" window appends exactly one
`BETWEEN %s AND %s` clause on `start_time` (jobs) or `time` (hosts) together
with the two bounds at the end of the parameter list. -/
theorem C2_time_clause_contribution :
    NF.construct_job_data_query [("account", "=", "GROUP12")] ["*"] "Times Valid"
        "2024-01-01 00:00:00" "2024-01-10 00:00:00"
      = .ok ("SELECT * FROM job_data WHERE account = %s AND start_time BETWEEN %s AND %s",
             ["GROUP12", "2024-01-01 00:00:00", "2024-01-10 00:00:00"])
    ∧ NF.on_button_clicked_jobs ts20240101 ts20240110 NF.MAX_DAYS_JOBS
        = NF.TimeWindowState.Valid
    ∧ (∀ (conds : List (String × String × String)) (cols : List String) (s e : String),
        NF.construct_job_data_query conds cols "Times Valid" s e =
          Except.map (fun qp => (qp.1 ++ (match conds with
              | [] => " WHERE start_time BETWEEN %s AND %s"
              | _ :: _ => " AND start_time BETWEEN %s AND %s"), qp.2 ++ [s, e]))
            (NF.construct_job_data_query conds cols "" s e))
    ∧ (∀ (conds : List (String × String × String)) (cols : List String) (s e : String),
        NF.construct_query_hosts conds cols "Times Valid" s e =
          ((NF.construct_query_hosts conds cols "" s e).1 ++ (match conds with
              | [] => " WHERE time BETWEEN %s AND %s"
              | _ :: _ => " AND time BETWEEN %s AND %s"),
           (NF.construct_query_hosts conds cols "" s e).2 ++ [s, e])) := by
  refine ⟨rfl, by decide, ?_, ?_⟩
  · intro conds cols s e
    unfold NF.construct_job_data_query
    cases hall : cols.all (fun column => column ∈ valid_columns) with
    | true => cases conds <;> rfl
    | false => cases conds <;> rfl
  · intro conds cols s e
    unfold NF.construct_query_hosts
    cases conds <;> rfl

/-- Claim C4: while the time window is not validated, `add_condition_jobs`
reports the distinct window error and leaves the state unchanged for every
column/operator/value — in particular the outcome does not depend on the value,
so the column validator is never consulted; when the window is valid, a
validation failure leaves the state unchanged and reports the message, and only
a successful validation appends the condition. -/
theorem C4_add_condition_gating :
    ∀ (st : NF.JobsSession) (column operator value : String),
    (st.time_window_valid_jobs = false →
      NF.add_condition_jobs st column operator value = (.windowNotValidated, st))
    ∧ (st.time_window_valid_jobs = true →
        (∀ msg, validate_condition_jobs column value = some msg →
          NF.add_condition_jobs st column operator value = (.validationError msg, st))
        ∧ (validate_condition_jobs column value = none →
          NF.add_condition_jobs st column operator value =
            (.added, { st with where_conditions_jobs :=
                st.where_conditions_jobs ++ [(column, operator, value)] }))) := by
  intro st column operator value
  constructor
  · intro h
    unfold NF.add_condition_jobs
    rw [h]
    rfl
  · intro h
    constructor
    · intro msg hv
      unfold NF.add_condition_jobs
      rw [h, hv]
      rfl
    · intro hv
      unfold NF.add_condition_jobs
      rw [h, hv]
      rfl

theorem C4_witness :
    NF.add_condition_jobs ⟨false, []⟩ "account" "=" "GROUP12"
        = (.windowNotValidated, ⟨false, []⟩)
    ∧ NF.add_condition_jobs ⟨true, []⟩ "account" "=" "GROUP12"
        = (.added, ⟨true, [("account", "=", "GROUP12")]⟩)
    ∧ NF.add_condition_jobs ⟨true, []⟩ "account" "=" "BOGUS"
        = (.validationError "Error: For 'account', value must be a comma-separated list of strings starting with 'GROUP' followed by one or more digits.", ⟨true, []⟩) :=
  ⟨(C4_add_condition_gating ⟨false, []⟩ "account" "=" "GROUP12").1 rfl,
   ((C4_add_condition_gating ⟨true, []⟩ "account" "=" "GROUP12").2 rfl).2 (by decide),
   ((C4_add_condition_gating ⟨true, []⟩ "account" "=" "BOGUS").2 rfl).1 _ (by decide)⟩

/-- Claim C5 counterexample: the host-data build performs no column validation
at all — selecting the unknown column `bogus` yields a complete query over it
rather than any schema error, so the claim's "for every table" fails on the
host table. -/
theorem C5_counterexample :
    DP.construct_query_hosts ⟨false, [], "", "", "None", "ASC", 0⟩ [] ["bogus"] "" "" ""
      = ("SELECT bogus FROM host_data", []) := by
  decide

/-- Claim C5 (amended): for the job-data build, an unknown selected column
rejects the whole build with exactly the error "Invalid column name selected"
(and no query text), and this is its only failure mode — the build succeeds
exactly when every selected column is known. -/
theorem C5_schema_validation_jobs :
    ∀ (w : DP.JobsWidgets) (conds : List (String × String × String))
      (cols : List String) (btn s e : String),
    match DP.construct_job_data_query w conds cols btn s e with
    | .error m => m = "Invalid column name selected"
        ∧ cols.all (fun column => column ∈ valid_columns) = false
    | .ok _ => cols.all (fun column => column ∈ valid_columns) = true := by
  intro w conds cols btn s e
  unfold DP.construct_job_data_query
  cases hall : cols.all (fun column => column ∈ valid_columns) with
  | true => exact rfl
  | false => exact ⟨rfl, rfl⟩

/-- Claim C6 (evidence for the index-based multi-removal defect): with three
conditions and the first two selected, the source's loop removes the first and
the THIRD condition — after the first pop shifts the list, the stale index of
the second selection points at the third element — leaving `[B]` instead of the
claimed `[C]`. -/
theorem C6_index_removal_divergence :
    NF.remove_condition_jobs
        [("jid", "=", "JOB1"), ("jid", "=", "JOB2"), ("jid", "=", "JOB3")]
        [displayCond ("jid", "=", "JOB1"), displayCond ("jid", "=", "JOB2")]
      = [("jid", "=", "JOB2")]
    ∧ [(("jid", "=", "JOB2") : String × String × String)] ≠ [("jid", "=", "JOB3")] := by
  constructor
  · decide
  · decide

/-- Claim C7 counterexample: `execute_sql_query_and_stream_to_disk` plans
chunk size `max(1, 10 // 25000) = 1`, not `10`, at the claimed example
`plan(10, 25000)`; and `execute_sql_query_chunked` plans chunk size `0` when
the count query reports zero rows, violating "at least 1 in every case". -/
theorem C7_counterexample :
    DBM.stream_chunksize 10 25000 = 1 ∧ (1 : Nat) ≠ 10
    ∧ NF.chunked_chunksize 0 25000 = 0 := by
  decide

/-- Claim C7 (amended): the chunked in-memory executor uses
`totalRows` when `totalRows ≤ target` and `totalRows / target` otherwise (so it
is ≥ 1 whenever `totalRows ≥ 1`, and `plan(10, 25000) = 10`,
`plan(100000, 25000) = 4`); the disk-streaming executor instead uses
`max 1 (totalRows / target)`, which is always ≥ 1 but equals 1, not 10, at
`(10, 25000)`. -/
theorem C7_chunk_size_amended :
    (∀ total_rows target_num_chunks : Nat, 1 ≤ target_num_chunks →
      (NF.chunked_chunksize total_rows target_num_chunks =
        if total_rows ≤ target_num_chunks then total_rows
        else total_rows / target_num_chunks)
      ∧ (1 ≤ total_rows → 1 ≤ NF.chunked_chunksize total_rows target_num_chunks)
      ∧ DBM.stream_chunksize total_rows target_num_chunks
          = max 1 (total_rows / target_num_chunks)
      ∧ 1 ≤ DBM.stream_chunksize total_rows target_num_chunks)
    ∧ NF.chunked_chunksize 100000 25000 = 4
    ∧ NF.chunked_chunksize 10 25000 = 10
    ∧ DBM.stream_chunksize 100000 25000 = 4 := by
  refine ⟨?_, by decide, by decide, by decide⟩
  intro t c hc
  refine ⟨?_, ?_, rfl, ?_⟩
  · unfold NF.chunked_chunksize
    by_cases h : t > c
    · rw [if_pos h, if_neg (by omega)]
    · rw [if_neg h, if_pos (by omega)]
  · intro ht
    unfold NF.chunked_chunksize
    by_cases h : t > c
    · rw [if_pos h]
      exact (Nat.one_le_div_iff (by omega)).mpr (by omega)
    · rw [if_neg h]
      exact ht
  · exact Nat.le_max_left 1 _

theorem C7_witness :
    (1 : Nat) ≤ 25000
    ∧ NF.chunked_chunksize 100000 25000
        = (if (100000 : Nat) ≤ 25000 then 100000 else 100000 / 25000)
    ∧ (1 ≤ (100000 : Nat) → 1 ≤ NF.chunked_chunksize 100000 25000)
    ∧ 1 ≤ DBM.stream_chunksize 100000 25000 :=
  ⟨by decide, (C7_chunk_size_amended.1 100000 25000 (by decide)).1,
   fun h => (C7_chunk_size_amended.1 100000 25000 (by decide)).2.1 h,
   (C7_chunk_size_amended.1 100000 25000 (by decide)).2.2.2⟩

/-- Claim C8: the free disk space is a single probe fixed for the whole
execution; the run completes exactly when every chunk passes the budget check
`bytesWrittenSoFar + thisChunkBytes < freeDiskSpace`; a completed run has
written every chunk in order with the byte total accumulated chunk by chunk;
and a stopped run has written exactly the chunks before the first failing
check — which remain as the partial result — with no error raised (the loop
returns an outcome in every case) and the byte total equal to the bytes of the
files actually written. -/
theorem C8_disk_stream_partial_success :
    ∀ (free_disk_space : Nat) (sizes : List Nat),
    ((DBM.execute_stream_to_disk free_disk_space sizes).completed = true →
      (DBM.execute_stream_to_disk free_disk_space sizes).written = List.range sizes.length
      ∧ (DBM.execute_stream_to_disk free_disk_space sizes).total_space_used = sizes.sum)
    ∧ ((DBM.execute_stream_to_disk free_disk_space sizes).completed = false →
      ∃ k, k < sizes.length
        ∧ (∀ j < k, (sizes.take (j + 1)).sum < free_disk_space)
        ∧ free_disk_space ≤ (sizes.take (k + 1)).sum
        ∧ (DBM.execute_stream_to_disk free_disk_space sizes).written = List.range k
        ∧ (DBM.execute_stream_to_disk free_disk_space sizes).total_space_used
            = (sizes.take k).sum)
    ∧ ((DBM.execute_stream_to_disk free_disk_space sizes).completed = true ↔
        ∀ j < sizes.length, (sizes.take (j + 1)).sum < free_disk_space) := by
  intro free sizes
  obtain ⟨h1, h2, h3⟩ := stream_go_spec sizes free 0 0
  unfold DBM.execute_stream_to_disk
  refine ⟨?_, ?_, ?_⟩
  · intro hc
    obtain ⟨hw, hu⟩ := h2 hc
    constructor
    · rw [hw]
      simp
    · rw [hu]
      omega
  · intro hc
    obtain ⟨k, hk, hok, hfail, hw, hu⟩ := h3 hc
    refine ⟨k, hk, ?_, by omega, ?_, by omega⟩
    · intro j hj
      have := hok j hj
      omega
    · rw [hw]
      simp
  · constructor
    · intro hc j hj
      have := h1.mp hc j hj
      omega
    · intro hall
      apply h1.mpr
      intro j hj
      have := hall j hj
      omega

theorem C8_witness :
    (DBM.execute_stream_to_disk 10 [4, 4, 4]).completed = false
    ∧ (∃ k, k < ([4, 4, 4] : List Nat).length
        ∧ (∀ j < k, (([4, 4, 4] : List Nat).take (j + 1)).sum < 10)
        ∧ 10 ≤ (([4, 4, 4] : List Nat).take (k + 1)).sum
        ∧ (DBM.execute_stream_to_disk 10 [4, 4, 4]).written = List.range k
        ∧ (DBM.execute_stream_to_disk 10 [4, 4, 4]).total_space_used
            = (([4, 4, 4] : List Nat).take k).sum) :=
  ⟨by decide, (C8_disk_stream_partial_success 10 [4, 4, 4]).2.1 (by decide)⟩

/-- Claim C9: after any sequence of host-table add and remove actions the
number of `"%s"` placeholder slots carried by the stored conditions equals the
length of the stored bound-value list; each successful add appends exactly one
placeholder condition and one bound value; and each removal iteration pops the
same index from both parallel lists. -/
theorem C9_host_condition_lockstep :
    (∀ (valid0 : Bool) (ops : List WSM.HostOp),
      sumPS (WSM.hostRun ⟨valid0, [], []⟩ ops).where_conditions_hosts
        = (WSM.hostRun ⟨valid0, [], []⟩ ops).where_conditions_values.length)
    ∧ (∀ (st : WSM.HostsSession) (column operator value : String),
        st.time_window_valid_hosts = true →
        validate_condition_hosts column (WSM.hostValuePreprocess value) = none →
        WSM.on_add_condition_button_hosts_clicked st column operator value =
          { st with
            where_conditions_hosts := st.where_conditions_hosts ++ [(column, operator, "%s")],
            where_conditions_values :=
              st.where_conditions_values ++ [WSM.hostValuePreprocess value] })
    ∧ (∀ (options : List String) (st : WSM.HostsSession) (sel : String)
        (rest : List String) (i : Nat) (values' : List String)
        (conds' : List (String × String × String)),
        indexOfOpt options sel = some i →
        popIdx st.where_conditions_values i = some values' →
        popIdx st.where_conditions_hosts i = some conds' →
        WSM.hosts_remove_go options st (sel :: rest) =
          WSM.hosts_remove_go options
            { st with where_conditions_hosts := conds', where_conditions_values := values' }
            rest) := by
  refine ⟨?_, ?_, ?_⟩
  · intro valid0 ops
    obtain ⟨g1, g2⟩ := host_run_lockstep ops ⟨valid0, [], []⟩
      (fun x hx => absurd hx (List.not_mem_nil x)) rfl
    rw [sumPS_of_all_ps g1]
    exact g2
  · intro st column operator value hval hnone
    unfold WSM.on_add_condition_button_hosts_clicked
    rw [hval]
    simp only [Bool.not_true, Bool.false_eq_true, if_false, hnone]
  · intro options st sel rest i values' conds' hidx hv hc
    conv_lhs => rw [WSM.hosts_remove_go]
    rw [hidx]
    simp only [hv, hc]

theorem C9_witness :
    sumPS (WSM.hostRun ⟨true, [], []⟩
        [WSM.HostOp.add "type" "=" "X"]).where_conditions_hosts
      = (WSM.hostRun ⟨true, [], []⟩
        [WSM.HostOp.add "type" "=" "X"]).where_conditions_values.length
    ∧ WSM.on_add_condition_button_hosts_clicked ⟨true, [], []⟩ "type" "=" "X"
        = ⟨true, [("type", "=", "%s")], ["X"]⟩
    ∧ WSM.hosts_remove_go ["d"] ⟨true, [("type", "=", "%s")], ["X"]⟩ ["d"]
        = WSM.hosts_remove_go ["d"] ⟨true, [], []⟩ [] :=
  ⟨C9_host_condition_lockstep.1 true [WSM.HostOp.add "type" "=" "X"],
   C9_host_condition_lockstep.2.1 ⟨true, [], []⟩ "type" "=" "X" rfl (by decide),
   C9_host_condition_lockstep.2.2 ["d"] ⟨true, [("type", "=", "%s")], ["X"]⟩ "d" [] 0 [] []
     (by decide) (by decide) (by decide)⟩

/-- Claim C10: any column outside the jobs dispatch chain (for example `queue`,
`state`, `submit_time`, `runtime`) and any column outside the hosts dispatch
chain (for example `type`, `diff`, `arc`) is accepted with every value — the
if/elif chains fall through leaving no error. -/
theorem C10_unknown_columns_accept_all :
    ∀ column value : String,
    (column ∉ ["jid", "ncores", "ngpus", "nhosts", "timelimit", "account", "username",
        "host_list", "jobname"] →
      validate_condition_jobs column value = none)
    ∧ (column ∉ ["event", "host", "jid", "unit", "value"] →
      validate_condition_hosts column value = none) := by
  intro column value
  constructor
  · intro h
    simp only [List.mem_cons, List.not_mem_nil, or_false, not_or] at h
    obtain ⟨hjid, hn1, hn2, hn3, hn4, hacc, husr, hhl, hjn⟩ := h
    have hnum : column ∉ ["ncores", "ngpus", "nhosts", "timelimit"] := by
      simp [hn1, hn2, hn3, hn4]
    unfold validate_condition_jobs
    rw [if_neg hjid, if_neg hnum, if_neg hacc, if_neg husr, if_neg hhl, if_neg hjn]
  · intro h
    simp only [List.mem_cons, List.not_mem_nil, or_false, not_or] at h
    obtain ⟨hev, hho, hjid, hun, hva⟩ := h
    unfold validate_condition_hosts
    rw [if_neg hev, if_neg hho, if_neg hjid, if_neg hun, if_neg hva]

theorem C10_witness :
    validate_condition_jobs "queue" "?? any value at all ??" = none
    ∧ validate_condition_hosts "type" "?? any value at all ??" = none :=
  ⟨(C10_unknown_columns_accept_all "queue" "?? any value at all ??").1 (by decide),
   (C10_unknown_columns_accept_all "type" "?? any value at all ??").2 (by decide)⟩

/-- The IN-list a jobs widget state contributes to the build: the comma-split,
stripped textarea entries when the first is nonempty, and nothing otherwise. -/
def inListJobs (w : DP.JobsWidgets) : List String :=
  match (pySplit ',' w.in_values_textarea_jobs).map pyStrip with
  | [] => []
  | v0 :: vs => if v0 ≠ "" then v0 :: vs else []

/-- The IN-list a hosts widget state contributes to the build, as
`inListJobs`. -/
def inListHosts (w : DP.HostsWidgets) : List String :=
  match (pySplit ',' w.in_values_textarea).map pyStrip with
  | [] => []
  | v0 :: vs => if v0 ≠ "" then v0 :: vs else []

theorem countPS_nfFrag {c : String × String × String} (hcol : noPct c.1)
    (hop : noPct c.2.1) : countPS (c.1 ++ " " ++ c.2.1 ++ " %s") = 1 := by
  rw [countPS_append_noPct_left (noPct_append (noPct_append hcol (by decide)) hop)]
  decide

theorem countPS_pyJoinAnd_nf : ∀ (fs : List (String × String × String)),
    (∀ c ∈ fs, noPct c.1 ∧ noPct c.2.1) →
    countPS (pyJoin " AND " (fs.map (fun c => c.1 ++ " " ++ c.2.1 ++ " %s")))
      = fs.length := by
  intro fs
  induction fs with
  | nil =>
    intro _
    rfl
  | cons c fs' ih =>
    intro hc
    cases fs' with
    | nil =>
      show countPS (c.1 ++ " " ++ c.2.1 ++ " %s") = 1
      exact countPS_nfFrag (hc c (List.mem_cons_self _ _)).1 (hc c (List.mem_cons_self _ _)).2
    | cons c2 fs'' =>
      rw [List.map_cons, List.map_cons, pyJoin_cons_cons,
        ← List.map_cons (fun c => c.1 ++ " " ++ c.2.1 ++ " %s") c2 fs'']
      have h2 : ((c.1 ++ " " ++ c.2.1 ++ " %s") ++ " AND ").data.getLast? ≠ some '%' := by
        rw [getLast?_data_append_right _ (by decide)]
        decide
      rw [countPS_append_left h2]
      have h1 : countPS ((c.1 ++ " " ++ c.2.1 ++ " %s") ++ " AND ")
          = countPS (c.1 ++ " " ++ c.2.1 ++ " %s") := by
        rw [countPS_append_right (by decide)]
        have hz : countPS " AND " = 0 := by decide
        omega
      rw [h1, countPS_nfFrag (hc c (List.mem_cons_self _ _)).1 (hc c (List.mem_cons_self _ _)).2,
        ih (fun x hx => hc x (List.mem_cons_of_mem _ hx))]
      simp only [List.length_cons]
      omega

/-- Claim C1: every successful query build — the class-based job-data and
host-data builders and the notebook job-data builder — returns its parameters
in the order "one value per explicit condition in insertion order, then the two
time-range bounds when the window is validated, then the IN-list values in list
order", and the number of `%s` placeholders in the returned text equals the
length of that parameter list.  For the host builder the explicit-condition
values are the parallel `where_conditions_values` list, one per stored `"%s"`
condition (the shape the add handler produces — see C9).  The `noPct`
hypotheses record that the column names, operators and widget selections — all
drawn from fixed dropdowns in the source — contain no `%` character. -/
theorem C1_placeholder_parameter_lockstep :
    (∀ (w : DP.JobsWidgets) (conds : List (String × String × String))
      (cols : List String) (btn s e q : String) (ps : List String),
    (∀ c ∈ conds, noPct c.1 ∧ noPct c.2.1) →
    noPct w.in_values_dropdown_jobs →
    noPct w.order_by_dropdown_jobs →
    noPct w.order_by_direction_dropdown_jobs →
    noPct (toString w.limit_input_jobs) →
    DP.construct_job_data_query w conds cols btn s e = .ok (q, ps) →
    ps = conds.map (fun c => c.2.2)
          ++ (if btn = "Times Valid" then [s, e] else [])
          ++ inListJobs w
    ∧ countPS q = ps.length)
    ∧ (∀ (w : DP.HostsWidgets) (conds : List (String × String × String))
      (cols : List String) (btn s e q : String) (ps : List String),
    (∀ c ∈ conds, noPct c.1 ∧ noPct c.2.1 ∧ c.2.2 = "%s") →
    conds.length = w.where_conditions_values.length →
    (∀ c ∈ cols, noPct c) →
    noPct w.in_values_dropdown →
    noPct w.order_by_dropdown →
    noPct w.order_by_direction_dropdown →
    noPct (toString w.limit_input) →
    DP.construct_query_hosts w conds cols btn s e = (q, ps) →
    ps = w.where_conditions_values
          ++ (if btn = "Times Valid" then [s, e] else [])
          ++ inListHosts w
    ∧ countPS q = ps.length)
    ∧ (∀ (conds : List (String × String × String)) (cols : List String)
      (btn s e q : String) (ps : List String),
    (∀ c ∈ conds, noPct c.1 ∧ noPct c.2.1) →
    NF.construct_job_data_query conds cols btn s e = .ok (q, ps) →
    ps = conds.map (fun c => c.2.2)
          ++ (if btn = "Times Valid" then [s, e] else [])
    ∧ countPS q = ps.length) := by
  refine ⟨?_, ?_, ?_⟩
  · intro w conds cols btn s e q ps hconds hindrop horder hdir hlimit hok
    cases hall : cols.all (fun column => column ∈ valid_columns) with
    | false =>
      unfold DP.construct_job_data_query at hok
      rw [if_pos (by simp [hall])] at hok
      exact absurd hok (by simp)
    | true =>
      unfold DP.construct_job_data_query at hok
      rw [if_neg (by simp [hall])] at hok
      simp only [Except.ok.injEq, Prod.mk.injEq] at hok
      obtain ⟨hq, hps⟩ := hok
      subst hq
      subst hps
      have hcols : ∀ c ∈ cols, noPct c := by
        intro c hc
        have hmem : c ∈ valid_columns :=
          of_decide_eq_true (List.all_eq_true.mp hall c hc)
        have hvz : ∀ v ∈ valid_columns, noPct v := by decide
        exact hvz c hmem
      have hquery : noPct (if w.distinct_checkbox_jobs = true
          then "SELECT DISTINCT " ++ pyJoin ", " cols ++ " FROM job_data"
          else "SELECT " ++ pyJoin ", " cols ++ " FROM job_data") := by
        have hj : noPct (pyJoin ", " cols) := noPct_pyJoin (by decide) hcols
        by_cases hd : w.distinct_checkbox_jobs = true
        · rw [if_pos hd]
          exact noPct_append (noPct_append (by decide) hj) (by decide)
        · rw [if_neg hd]
          exact noPct_append (noPct_append (by decide) hj) (by decide)
      have hLn : noPct (" LIMIT " ++ toString w.limit_input_jobs) :=
        noPct_append (by decide) hlimit
      have hLh : (" LIMIT " ++ toString w.limit_input_jobs).data.head? ≠ some 's' := by
        rw [head?_data_append_left _ (by decide)]
        decide
      have hOn : noPct (" ORDER BY " ++ w.order_by_dropdown_jobs ++ " "
          ++ w.order_by_direction_dropdown_jobs) :=
        noPct_append (noPct_append (noPct_append (by decide) horder) (by decide)) hdir
      have hOh : (" ORDER BY " ++ w.order_by_dropdown_jobs ++ " "
          ++ w.order_by_direction_dropdown_jobs).data.head? ≠ some 's' := by
        rw [head?_data_append_left _
            (data_append_ne_nil_left _ (data_append_ne_nil_left _ (by decide))),
          head?_data_append_left _ (data_append_ne_nil_left _ (by decide)),
          head?_data_append_left _ (by decide)]
        decide
      have hbase : ∀ c ∈ conds.map (fun c => (c.1, c.2.1, "%s")),
          noPct c.1 ∧ noPct c.2.1 ∧ c.2.2.data.getLast? ≠ some '%' := by
        intro x hx
        rw [List.mem_map] at hx
        obtain ⟨c, hc, rfl⟩ := hx
        refine ⟨(hconds c hc).1, (hconds c hc).2, ?_⟩
        show ("%s" : String).data.getLast? ≠ some '%'
        decide
      have htimec : ∀ c ∈ [(("start_time", "BETWEEN", "%s AND %s") : String × String × String)],
          noPct c.1 ∧ noPct c.2.1 ∧ c.2.2.data.getLast? ≠ some '%' := by decide
      have h2ps : countPS "%s AND %s" = 2 := by decide
      simp only [inListJobs]
      by_cases hbtn : btn = "Times Valid"
      all_goals simp only [hbtn, reduceIte]
      all_goals cases hin : (pySplit ',' w.in_values_textarea_jobs).map pyStrip with
      | nil =>
        simp only [List.append_nil]
        refine ⟨by first | trivial | simp, ?_⟩
        rw [countPS_opt_suffix _ _ _ hLn hLh, countPS_opt_suffix _ _ _ hOn hOh]
        first
        | rw [countPS_appendWhere _ _ hquery (sideAppend hbase htimec),
            sumPS_append, sumPS_map_ps, sumPS_cons, sumPS_nil, h2ps]
        | rw [countPS_appendWhere _ _ hquery hbase, sumPS_map_ps]
        simp only [List.length_append, List.length_map, List.length_cons, List.length_nil]
        try omega
      | cons v0 vs =>
        have hinc : ∀ c ∈ [((w.in_values_dropdown_jobs, "IN",
            "(" ++ pyJoin ", " (List.replicate (v0 :: vs).length "%s") ++ ")")
              : String × String × String)],
            noPct c.1 ∧ noPct c.2.1 ∧ c.2.2.data.getLast? ≠ some '%' := by
          intro x hx
          rw [List.mem_singleton] at hx
          subst hx
          refine ⟨hindrop, ?_, ?_⟩
          · show noPct "IN"
            decide
          · show ("(" ++ pyJoin ", "
                (List.replicate (v0 :: vs).length "%s") ++ ")").data.getLast? ≠ some '%'
            exact inClause_getLast_ne_pct _
        by_cases hv0 : v0 = ""
        · simp only [hv0, ne_eq, not_true_eq_false, if_false, ite_false, List.append_nil,
            reduceIte]
          refine ⟨by first | trivial | simp, ?_⟩
          rw [countPS_opt_suffix _ _ _ hLn hLh, countPS_opt_suffix _ _ _ hOn hOh]
          first
          | rw [countPS_appendWhere _ _ hquery (sideAppend hbase htimec),
              sumPS_append, sumPS_map_ps, sumPS_cons, sumPS_nil, h2ps]
          | rw [countPS_appendWhere _ _ hquery hbase, sumPS_map_ps]
          simp only [List.length_append, List.length_map, List.length_cons, List.length_nil]
          try omega
        · simp only [ne_eq, hv0, not_false_eq_true, if_true, ite_true, reduceIte]
          refine ⟨by first | trivial | simp, ?_⟩
          rw [countPS_opt_suffix _ _ _ hLn hLh, countPS_opt_suffix _ _ _ hOn hOh]
          first
          | rw [countPS_appendWhere _ _ hquery (sideAppend (sideAppend hbase htimec) hinc),
              sumPS_append, sumPS_append, sumPS_map_ps, sumPS_cons, sumPS_nil, h2ps,
              sumPS_cons, sumPS_nil, countPS_inClause]
          | rw [countPS_appendWhere _ _ hquery (sideAppend hbase hinc),
              sumPS_append, sumPS_map_ps, sumPS_cons, sumPS_nil, countPS_inClause]
          simp only [List.length_append, List.length_map, List.length_cons, List.length_nil]
          try omega
  · intro w conds cols btn s e q ps hconds hlen hcols hindrop horder hdir hlimit hok
    unfold DP.construct_query_hosts at hok
    simp only [Prod.mk.injEq] at hok
    obtain ⟨hq, hps⟩ := hok
    subst hq
    subst hps
    have hquery : noPct (if w.distinct_checkbox = true
        then "SELECT DISTINCT " ++ pyJoin ", " cols ++ " FROM host_data"
        else "SELECT " ++ pyJoin ", " cols ++ " FROM host_data") := by
      have hj : noPct (pyJoin ", " cols) := noPct_pyJoin (by decide) hcols
      by_cases hd : w.distinct_checkbox = true
      · rw [if_pos hd]
        exact noPct_append (noPct_append (by decide) hj) (by decide)
      · rw [if_neg hd]
        exact noPct_append (noPct_append (by decide) hj) (by decide)
    have hLn : noPct (" LIMIT " ++ toString w.limit_input) :=
      noPct_append (by decide) hlimit
    have hLh : (" LIMIT " ++ toString w.limit_input).data.head? ≠ some 's' := by
      rw [head?_data_append_left _ (by decide)]
      decide
    have hOn : noPct (" ORDER BY " ++ w.order_by_dropdown ++ " "
        ++ w.order_by_direction_dropdown) :=
      noPct_append (noPct_append (noPct_append (by decide) horder) (by decide)) hdir
    have hOh : (" ORDER BY " ++ w.order_by_dropdown ++ " "
        ++ w.order_by_direction_dropdown).data.head? ≠ some 's' := by
      rw [head?_data_append_left _
          (data_append_ne_nil_left _ (data_append_ne_nil_left _ (by decide))),
        head?_data_append_left _ (data_append_ne_nil_left _ (by decide)),
        head?_data_append_left _ (by decide)]
      decide
    have hbase : ∀ c ∈ conds, noPct c.1 ∧ noPct c.2.1 ∧ c.2.2.data.getLast? ≠ some '%' := by
      intro x hx
      obtain ⟨h1, h2, h3⟩ := hconds x hx
      refine ⟨h1, h2, ?_⟩
      rw [h3]
      decide
    have hsum : sumPS conds = w.where_conditions_values.length := by
      rw [sumPS_of_all_ps (fun x hx => (hconds x hx).2.2)]
      exact hlen
    have htimec : ∀ c ∈ [(("time", "BETWEEN", "%s AND %s") : String × String × String)],
        noPct c.1 ∧ noPct c.2.1 ∧ c.2.2.data.getLast? ≠ some '%' := by decide
    have h2ps : countPS "%s AND %s" = 2 := by decide
    simp only [inListHosts]
    by_cases hbtn : btn = "Times Valid"
    all_goals simp only [hbtn, reduceIte]
    all_goals cases hin : (pySplit ',' w.in_values_textarea).map pyStrip with
    | nil =>
      simp only [List.append_nil]
      refine ⟨by first | trivial | simp, ?_⟩
      rw [countPS_opt_suffix _ _ _ hLn hLh, countPS_opt_suffix _ _ _ hOn hOh]
      first
      | rw [countPS_appendWhere _ _ hquery (sideAppend hbase htimec),
          sumPS_append, hsum, sumPS_cons, sumPS_nil, h2ps]
      | rw [countPS_appendWhere _ _ hquery hbase, hsum]
      all_goals simp only [List.length_append, List.length_cons, List.length_nil]
      all_goals omega
    | cons v0 vs =>
      have hinc : ∀ c ∈ [((w.in_values_dropdown, "IN",
          "(" ++ pyJoin ", " (List.replicate (v0 :: vs).length "%s") ++ ")")
            : String × String × String)],
          noPct c.1 ∧ noPct c.2.1 ∧ c.2.2.data.getLast? ≠ some '%' := by
        intro x hx
        rw [List.mem_singleton] at hx
        subst hx
        refine ⟨hindrop, ?_, ?_⟩
        · show noPct "IN"
          decide
        · show ("(" ++ pyJoin ", "
              (List.replicate (v0 :: vs).length "%s") ++ ")").data.getLast? ≠ some '%'
          exact inClause_getLast_ne_pct _
      by_cases hv0 : v0 = ""
      · simp only [hv0, ne_eq, not_true_eq_false, if_false, ite_false, List.append_nil,
          reduceIte]
        refine ⟨by first | trivial | simp, ?_⟩
        rw [countPS_opt_suffix _ _ _ hLn hLh, countPS_opt_suffix _ _ _ hOn hOh]
        first
        | rw [countPS_appendWhere _ _ hquery (sideAppend hbase htimec),
            sumPS_append, hsum, sumPS_cons, sumPS_nil, h2ps]
        | rw [countPS_appendWhere _ _ hquery hbase, hsum]
        all_goals simp only [List.length_append, List.length_cons, List.length_nil]
        all_goals omega
      · simp only [ne_eq, hv0, not_false_eq_true, if_true, ite_true, reduceIte]
        refine ⟨by first | trivial | simp, ?_⟩
        rw [countPS_opt_suffix _ _ _ hLn hLh, countPS_opt_suffix _ _ _ hOn hOh]
        first
        | rw [countPS_appendWhere _ _ hquery (sideAppend (sideAppend hbase htimec) hinc),
            sumPS_append, sumPS_append, hsum, sumPS_cons, sumPS_nil, h2ps,
            sumPS_cons, sumPS_nil, countPS_inClause]
        | rw [countPS_appendWhere _ _ hquery (sideAppend hbase hinc),
            sumPS_append, hsum, sumPS_cons, sumPS_nil, countPS_inClause]
        simp only [List.length_append, List.length_cons, List.length_nil]
        try omega
  · intro conds cols btn s e q ps hconds hok
    cases hall : cols.all (fun column => column ∈ valid_columns) with
    | false =>
      unfold NF.construct_job_data_query at hok
      rw [if_pos (by simp [hall])] at hok
      exact absurd hok (by simp)
    | true =>
      have hcols : ∀ c ∈ cols, noPct c := by
        intro c hc
        have hmem : c ∈ valid_columns :=
          of_decide_eq_true (List.all_eq_true.mp hall c hc)
        have hvz : ∀ v ∈ valid_columns, noPct v := by decide
        exact hvz c hmem
      have hquery : noPct ("SELECT " ++ pyJoin ", " cols ++ " FROM job_data") :=
        noPct_append (noPct_append (by decide) (noPct_pyJoin (by decide) hcols)) (by decide)
      have hA : countPS " AND start_time BETWEEN %s AND %s" = 2 := by decide
      have hW : countPS " WHERE start_time BETWEEN %s AND %s" = 2 := by decide
      unfold NF.construct_job_data_query at hok
      rw [if_neg (by simp [hall])] at hok
      cases conds with
      | nil =>
        by_cases hbtn : btn = "Times Valid"
        · rw [if_pos hbtn] at hok
          simp only [Except.ok.injEq, Prod.mk.injEq] at hok
          obtain ⟨hq, hps⟩ := hok
          subst hq
          subst hps
          simp only [hbtn, reduceIte]
          refine ⟨by simp, ?_⟩
          rw [countPS_append_noPct_left hquery, hW]
          simp
        · rw [if_neg hbtn] at hok
          simp only [Except.ok.injEq, Prod.mk.injEq] at hok
          obtain ⟨hq, hps⟩ := hok
          subst hq
          subst hps
          simp only [hbtn, reduceIte]
          refine ⟨by simp, ?_⟩
          rw [countPS_eq_zero hquery]
          simp
      | cons c0 crest =>
        by_cases hbtn : btn = "Times Valid"
        · rw [if_pos hbtn] at hok
          simp only [Except.ok.injEq, Prod.mk.injEq] at hok
          obtain ⟨hq, hps⟩ := hok
          subst hq
          subst hps
          simp only [hbtn, reduceIte]
          refine ⟨by simp, ?_⟩
          rw [countPS_append_right (by decide), countPS_append_noPct_left hquery,
            countPS_append_noPct_left (by decide), countPS_pyJoinAnd_nf _ hconds, hA]
          all_goals simp only [List.length_append, List.length_map, List.length_cons,
            List.length_nil]
          all_goals omega
        · rw [if_neg hbtn] at hok
          simp only [Except.ok.injEq, Prod.mk.injEq] at hok
          obtain ⟨hq, hps⟩ := hok
          subst hq
          subst hps
          simp only [hbtn, reduceIte]
          refine ⟨by simp, ?_⟩
          rw [countPS_append_noPct_left hquery, countPS_append_noPct_left (by decide),
            countPS_pyJoinAnd_nf _ hconds]
          simp [List.length_map]

theorem C1_witness :
    ((∀ c ∈ [(("account", "=", "GROUP12") : String × String × String)],
        noPct c.1 ∧ noPct c.2.1)
     ∧ DP.construct_job_data_query ⟨false, "JOB1, JOB2", "jid", "None", "ASC", 0⟩
          [("account", "=", "GROUP12")] ["*"] "Times Valid" "S" "E"
        = .ok ("SELECT * FROM job_data WHERE account = %s AND start_time BETWEEN %s AND %s AND jid IN (%s, %s)",
               ["GROUP12", "S", "E", "JOB1", "JOB2"])
     ∧ (["GROUP12", "S", "E", "JOB1", "JOB2"]
          = [(("account", "=", "GROUP12") : String × String × String)].map (fun c => c.2.2)
            ++ (if ("Times Valid" : String) = "Times Valid" then ["S", "E"] else [])
            ++ inListJobs ⟨false, "JOB1, JOB2", "jid", "None", "ASC", 0⟩
        ∧ countPS "SELECT * FROM job_data WHERE account = %s AND start_time BETWEEN %s AND %s AND jid IN (%s, %s)"
          = (["GROUP12", "S", "E", "JOB1", "JOB2"] : List String).length))
    ∧ (DP.construct_query_hosts ⟨false, ["cpuuser"], "JOB1, JOB2", "jid", "None", "ASC", 0⟩
          [("event", "=", "%s")] ["event"] "Times Valid" "S" "E"
        = ("SELECT event FROM host_data WHERE event = %s AND time BETWEEN %s AND %s AND jid IN (%s, %s)",
           ["cpuuser", "S", "E", "JOB1", "JOB2"])
       ∧ ((["cpuuser", "S", "E", "JOB1", "JOB2"] : List String)
            = ["cpuuser"]
              ++ (if ("Times Valid" : String) = "Times Valid" then ["S", "E"] else [])
              ++ inListHosts ⟨false, ["cpuuser"], "JOB1, JOB2", "jid", "None", "ASC", 0⟩
          ∧ countPS "SELECT event FROM host_data WHERE event = %s AND time BETWEEN %s AND %s AND jid IN (%s, %s)"
            = (["cpuuser", "S", "E", "JOB1", "JOB2"] : List String).length))
    ∧ (NF.construct_job_data_query [("account", "=", "GROUP12")] ["*"] "Times Valid" "S" "E"
        = .ok ("SELECT * FROM job_data WHERE account = %s AND start_time BETWEEN %s AND %s",
               ["GROUP12", "S", "E"])
       ∧ ((["GROUP12", "S", "E"] : List String)
            = [(("account", "=", "GROUP12") : String × String × String)].map (fun c => c.2.2)
              ++ (if ("Times Valid" : String) = "Times Valid" then ["S", "E"] else [])
          ∧ countPS "SELECT * FROM job_data WHERE account = %s AND start_time BETWEEN %s AND %s"
            = (["GROUP12", "S", "E"] : List String).length)) := by
  refine ⟨⟨by decide, rfl, ?_⟩, ⟨rfl, ?_⟩, ⟨rfl, ?_⟩⟩
  · exact C1_placeholder_parameter_lockstep.1 ⟨false, "JOB1, JOB2", "jid", "None", "ASC", 0⟩
      [("account", "=", "GROUP12")] ["*"] "Times Valid" "S" "E" _ _
      (by decide) (by decide) (by decide) (by decide) (by decide) rfl
  · exact C1_placeholder_parameter_lockstep.2.1
      ⟨false, ["cpuuser"], "JOB1, JOB2", "jid", "None", "ASC", 0⟩
      [("event", "=", "%s")] ["event"] "Times Valid" "S" "E" _ _
      (by decide) (by decide) (by decide) (by decide) (by decide) (by decide) (by decide) rfl
  · exact C1_placeholder_parameter_lockstep.2.2
      [("account", "=", "GROUP12")] ["*"] "Times Valid" "S" "E" _ _
      (by decide) rfl
